import Mathlib

/-!
Verification of the k-means clustering engine of `cluster_data.py`.

The embedding idealises Python floats as exact rationals (`ℚ`).  The
Euclidean distance of the source takes a square root; statements about
Euclidean distances use `Real.sqrt` through `coords_distance`, while the
executable assignment scan compares squared distances, which selects the
same cluster because the square root is strictly monotone on nonnegative
numbers (bridging lemmas below).  `Option` models uncaught Python
exceptions: `none` is the `AttributeError` of `best_points.append` when
no cluster was strictly below the initial threshold, the `IndexError` of
`points[0]` on an empty membership list, or — only for the top-level
loop, which carries an explicit fuel — non-termination of the unbounded
`while True` loop within the given fuel.
-/

set_option allowUnsafeReducibility true
attribute [local semireducible] Rat.add Rat.sub Rat.mul Rat.inv
set_option maxRecDepth 10000
set_option exponentiation.threshold 5000

/-- A coordinate: an ordered sequence of (idealised) real numbers. -/
abbrev Coord : Type := List ℚ

/-- `coords_add` from the source: element-wise sum.  `zip` silently
truncates to the shorter operand. -/
def coords_add (coords0 coords1 : Coord) : Coord :=
  (coords0.zip coords1).map (fun xy => xy.1 + xy.2)

/-- The running total accumulated by `coords_distance` before its final
square root: the sum of squared coordinate differences, over the `zip`
of the two operands (which silently truncates). -/
def dist2 (coords0 coords1 : Coord) : ℚ :=
  (coords0.zip coords1).foldl (fun total xy => total + (xy.1 - xy.2) ^ 2) 0

/-- `coords_distance` from the source: Euclidean distance, the square
root of the accumulated total of squared differences. -/
noncomputable def coords_distance (coords0 coords1 : Coord) : ℝ :=
  Real.sqrt ((dist2 coords0 coords1 : ℚ) : ℝ)

/-- `coords_div` from the source: element-wise division by a scalar. -/
def coords_div (coords : Coord) (n : ℚ) : Coord :=
  coords.map (fun x => x / n)

/-- `coords_zero` from the source: the all-zero coordinate of the same
length. -/
def coords_zero (coords : Coord) : Coord :=
  List.replicate coords.length 0

/-- `sys.float_info.max`, the initial `best_distance` of the assignment
scan, as an exact rational: (2 - 2⁻⁵²)·2¹⁰²³. -/
def floatInfoMax : ℚ := ((2 ^ 1024 - 2 ^ 971 : ℕ) : ℚ)

/-- `floatInfoMax` squared: the initial threshold of the scan expressed
on squared distances (`distance < floatInfoMax` iff
`dist2 < floatInfoMaxSq`, by monotonicity of the square root). -/
def floatInfoMaxSq : ℚ := floatInfoMax ^ 2

/-- A `Point` of the source: immutable coordinates plus an opaque label
(labels are idealised as naturals; the engine never inspects them). -/
structure Point where
  coords : Coord
  label : ℕ
deriving DecidableEq

/-- The `Clusters` state of the source: `centroids` models the tuple of
`Cluster` objects (each holding just a mutable centroid coordinate) and
`members` models the index-aligned tuple `_points` of membership lists. -/
structure Clusters where
  centroids : List Coord
  members : List (List Point)
deriving DecidableEq

/-- `Clusters.__init__`: one cluster per seed centroid, every membership
list starting empty. -/
def Clusters.init (centroids : List Coord) : Clusters :=
  ⟨centroids, centroids.map (fun _ => [])⟩

/-- The scan of `Clusters.assign` walks `zip(self._points, self._clusters)`
keeping `best_points` and `best_distance`, starting from
`(None, sys.float_info.max)`; a later cluster wins only on a strictly
smaller distance.  The fold below tracks the best index and the best
squared distance, which is equivalent because the square root is
strictly monotone on nonnegative numbers. -/
def bestAux (pc : Coord) : List Coord → ℕ → Option ℕ → ℚ → Option ℕ × ℚ
  | [], _, best, bestD => (best, bestD)
  | c :: cs, i, best, bestD =>
    if dist2 c pc < bestD then bestAux pc cs (i + 1) (some i) (dist2 c pc)
    else bestAux pc cs (i + 1) best bestD

/-- The index of the membership list that `best_points` refers to when
the scan finishes; `none` models `best_points` still being `None`. -/
def bestIndex (pc : Coord) (cents : List Coord) : Option ℕ :=
  (bestAux pc cents 0 none floatInfoMaxSq).1

/-- The centroids in scan order: `zip(self._points, self._clusters)`
truncates to the shorter of the two tuples (they always have equal
length in reachable states). -/
def scannedCentroids (cl : Clusters) : List Coord :=
  (cl.members.zip cl.centroids).map Prod.snd

/-- Append a point to the i-th membership list (no-op out of range,
which the scan never produces). -/
def appendAt : ℕ → Point → List (List Point) → List (List Point)
  | _, _, [] => []
  | 0, p, m :: ms => (m ++ [p]) :: ms
  | i + 1, p, m :: ms => m :: appendAt i p ms

/-- `Clusters.assign`: append the point to the membership list of the
first cluster achieving the minimal distance; `none` models the
`AttributeError` raised by `best_points.append` when no cluster came
strictly below the initial threshold. -/
def Clusters.assign (cl : Clusters) (p : Point) : Option Clusters :=
  match bestIndex p.coords (scannedCentroids cl) with
  | none => none
  | some i => some ⟨cl.centroids, appendAt i p cl.members⟩

/-- `Clusters.calculate_centroid`: the mean of the members, the sum via
`coords_add` starting from `coords_zero(points[0].coords)` divided by
the member count; `none` models the `IndexError` raised by `points[0]`
on an empty membership list. -/
def Clusters.calculate_centroid : List Point → Option Coord
  | [] => none
  | p0 :: rest =>
    some (coords_div
      ((p0 :: rest).foldl (fun sums q => coords_add sums q.coords) (coords_zero p0.coords))
      (((p0 :: rest).length : ℚ)))

/-- The loop of `Clusters.update_centroids`, walking
`zip(self._clusters, self._points)` and recomputing each centroid. -/
def zipCalc : List Coord → List (List Point) → Option (List Coord)
  | [], _ => some []
  | cs, [] => some cs
  | _ :: cs, m :: ms =>
    match Clusters.calculate_centroid m, zipCalc cs ms with
    | some c1, some rest => some (c1 :: rest)
    | _, _ => none

/-- `Clusters.update_centroids`: replace every centroid by the freshly
computed mean of the corresponding membership list. -/
def Clusters.update_centroids (cl : Clusters) : Option Clusters :=
  (zipCalc cl.centroids cl.members).map (fun cs => ⟨cs, cl.members⟩)

/-- `Clusters.clear_assignments`: empty every membership list. -/
def Clusters.clear_assignments (cl : Clusters) : Clusters :=
  ⟨cl.centroids, cl.members.map (fun _ => [])⟩

/-- One `for point in points: clusters.assign(point)` pass, in input
order. -/
def assignPass (cl : Clusters) (points : List Point) : Option Clusters :=
  points.foldlM Clusters.assign cl

/-- The body of one iteration of the while-loop of `make_clusters`: a
full assignment pass followed by `update_centroids`. -/
def clusterStep (points : List Point) (cl : Clusters) : Option Clusters :=
  (assignPass cl points).bind Clusters.update_centroids

/-- The `while True` loop of `make_clusters`, with fuel modelling its
unbounded iteration: recompute, compare the new centroid list to the
previous iteration one (initially `[]`) with exact equality, stop
when identical, otherwise clear all membership lists and go round
again. -/
def makeClustersLoop (points : List Point) : ℕ → Clusters → List Coord → Option Clusters
  | 0, _, _ => none
  | fuel + 1, cl, previousCentroids =>
    match clusterStep points cl with
    | none => none
    | some cl2 =>
      if cl2.centroids = previousCentroids then some cl2
      else makeClustersLoop points fuel cl2.clear_assignments cl2.centroids

/-- `Clusters(map(lambda p: p.coords, points[0:k]))`: the seeded state
of `make_clusters`. -/
def seedClusters (points : List Point) (k : ℕ) : Clusters :=
  Clusters.init ((points.take k).map Point.coords)

/-- `make_clusters` from the source, with explicit fuel for the
unbounded while-loop. -/
def make_clusters (fuel : ℕ) (points : List Point) (k : ℕ) : Option Clusters :=
  makeClustersLoop points fuel (seedClusters points k) []

/-- The index of the membership list the assignment scan selects (used
to state where `Clusters.assign` appends). -/
def chosenIndex (cl : Clusters) (p : Point) : ℕ :=
  (bestIndex p.coords (scannedCentroids cl)).getD 0

/-- Geometry error kind prescribed by the spec for mismatched operand
lengths. -/
inductive GeomError where
  | dimensionMismatch
deriving DecidableEq

/-- Modelled from the spec: the `distance` operation as sections 4.1 and
7 prescribe it — a geometry operation whose operands have different
lengths must fail fast with a dimensionality-mismatch error instead of
silently truncating.  The source has no such check; this definition
exists only to be compared with `coords_distance`. -/
noncomputable def distanceSpec (coords0 coords1 : Coord) : Except GeomError ℝ :=
  if coords0.length = coords1.length then Except.ok (coords_distance coords0 coords1)
  else Except.error GeomError.dimensionMismatch

/-! ### Basic list facts about the embedded operations -/

lemma allEmpty_getD (ms : List (List Point)) (h : ∀ m ∈ ms, m = []) (i : ℕ) :
    ms.getD i [] = [] := by
  by_cases hi : i < ms.length
  · rw [List.getD_eq_getElem _ _ hi]
    exact h _ (List.getElem_mem hi)
  · rw [List.getD_eq_default _ _ (le_of_not_lt hi)]

lemma allEmpty_eq_of_length : ∀ (ms ms2 : List (List Point)),
    (∀ m ∈ ms, m = []) → (∀ m ∈ ms2, m = []) → ms.length = ms2.length → ms = ms2
  | [], [], _, _, _ => rfl
  | [], _ :: _, _, _, h => by simp at h
  | _ :: _, [], _, _, h => by simp at h
  | m :: ms, m2 :: ms2, h1, h2, hl => by
    have e1 : m = [] := h1 m (by simp)
    have e2 : m2 = [] := h2 m2 (by simp)
    have : ms = ms2 :=
      allEmpty_eq_of_length ms ms2 (fun x hx => h1 x (by simp [hx]))
        (fun x hx => h2 x (by simp [hx])) (by simpa using hl)
    rw [e1, e2, this]

lemma appendAt_length : ∀ (i : ℕ) (p : Point) (ms : List (List Point)),
    (appendAt i p ms).length = ms.length
  | i, _, [] => by cases i <;> rfl
  | 0, _, _ :: _ => rfl
  | i + 1, p, _ :: ms => by simp [appendAt, appendAt_length i p ms]

lemma appendAt_of_length_le : ∀ (i : ℕ) (p : Point) (ms : List (List Point)),
    ms.length ≤ i → appendAt i p ms = ms
  | i, _, [], _ => by cases i <;> rfl
  | 0, _, _ :: _, h => by simp at h
  | i + 1, p, m :: ms, h => by
    simp only [appendAt]
    rw [appendAt_of_length_le i p ms (by simpa using h)]

lemma appendAt_getD_self : ∀ (i : ℕ) (p : Point) (ms : List (List Point)),
    i < ms.length → (appendAt i p ms).getD i [] = ms.getD i [] ++ [p]
  | _, _, [], h => by simp at h
  | 0, _, _ :: _, _ => rfl
  | i + 1, p, m :: ms, h => by
    simp only [appendAt, List.getD_cons_succ]
    exact appendAt_getD_self i p ms (by simpa using h)

lemma appendAt_getD_ne : ∀ (i j : ℕ) (p : Point) (ms : List (List Point)),
    j ≠ i → (appendAt i p ms).getD j [] = ms.getD j []
  | i, _, _, [], _ => by cases i <;> rfl
  | 0, 0, _, _ :: _, h => absurd rfl h
  | 0, j + 1, _, _ :: _, _ => rfl
  | i + 1, 0, _, _ :: _, _ => rfl
  | i + 1, j + 1, p, m :: ms, h => by
    simp only [appendAt, List.getD_cons_succ]
    exact appendAt_getD_ne i j p ms (fun e => h (by rw [e]))

lemma appendAt_flatten_perm : ∀ (i : ℕ) (p : Point) (ms : List (List Point)),
    i < ms.length → (appendAt i p ms).flatten.Perm (ms.flatten ++ [p])
  | _, _, [], h => by simp at h
  | 0, p, m :: ms, _ => by
    simp only [appendAt, List.flatten_cons, List.append_assoc]
    exact List.Perm.append_left m (List.perm_append_comm)
  | i + 1, p, m :: ms, h => by
    simp only [appendAt, List.flatten_cons, List.append_assoc]
    exact List.Perm.append_left m (appendAt_flatten_perm i p ms (by simpa using h))

lemma flatten_eq_nil_of_allEmpty : ∀ (ms : List (List Point)),
    (∀ m ∈ ms, m = []) → ms.flatten = []
  | [], _ => rfl
  | m :: ms, h => by
    have : m = [] := h m (by simp)
    simp only [List.flatten_cons, this, List.nil_append]
    exact flatten_eq_nil_of_allEmpty ms (fun x hx => h x (by simp [hx]))

lemma zip_map_snd : ∀ (ms : List (List Point)) (cs : List Coord),
    (ms.zip cs).map Prod.snd = cs.take ms.length
  | [], _ => by simp
  | _ :: _, [] => by simp
  | m :: ms, c :: cs => by
    simp only [List.zip_cons_cons, List.map_cons, List.length_cons, List.take_succ_cons]
    rw [zip_map_snd ms cs]

lemma scannedCentroids_eq (cl : Clusters) :
    scannedCentroids cl = cl.centroids.take cl.members.length :=
  zip_map_snd cl.members cl.centroids

lemma scannedCentroids_of_length_eq (cl : Clusters)
    (hl : cl.members.length = cl.centroids.length) :
    scannedCentroids cl = cl.centroids := by
  rw [scannedCentroids_eq, hl, List.take_of_length_le (le_refl _)]

/-! ### Geometry lemmas -/

lemma foldl_sq_nonneg : ∀ (l : List (ℚ × ℚ)) (acc : ℚ), 0 ≤ acc →
    0 ≤ l.foldl (fun total xy => total + (xy.1 - xy.2) ^ 2) acc
  | [], _, h => h
  | xy :: l, acc, h =>
    foldl_sq_nonneg l (acc + (xy.1 - xy.2) ^ 2) (add_nonneg h (sq_nonneg _))

lemma dist2_nonneg (a b : Coord) : 0 ≤ dist2 a b :=
  foldl_sq_nonneg (a.zip b) 0 (le_refl 0)

lemma coords_distance_le_of_dist2_le {a b c d : Coord} (h : dist2 a b ≤ dist2 c d) :
    coords_distance a b ≤ coords_distance c d :=
  Real.sqrt_le_sqrt (by exact_mod_cast h)

lemma coords_distance_lt_of_dist2_lt {a b c d : Coord} (h : dist2 a b < dist2 c d) :
    coords_distance a b < coords_distance c d :=
  Real.sqrt_lt_sqrt (by exact_mod_cast dist2_nonneg a b) (by exact_mod_cast h)

/-- The scan of the source compares `sqrt`-distances; comparing the
accumulated squared totals is equivalent, the square root being
strictly monotone on nonnegative numbers. -/
lemma coords_distance_lt_iff_dist2_lt (a b c d : Coord) :
    coords_distance a b < coords_distance c d ↔ dist2 a b < dist2 c d := by
  constructor
  · intro h
    by_contra hle
    exact absurd (coords_distance_le_of_dist2_le (le_of_not_lt hle)) (not_le_of_lt h)
  · exact coords_distance_lt_of_dist2_lt

lemma coords_add_length (a b : Coord) : (coords_add a b).length = min a.length b.length := by
  simp [coords_add]

lemma coords_add_getD (a b : Coord) (j : ℕ) (ha : j < a.length) (hb : j < b.length) :
    (coords_add a b).getD j 0 = a.getD j 0 + b.getD j 0 := by
  have hz : j < (a.zip b).length := by simp [List.length_zip]; omega
  have hm : j < ((a.zip b).map (fun xy => xy.1 + xy.2)).length := by simpa using hz
  rw [coords_add, List.getD_eq_getElem _ _ hm, List.getD_eq_getElem _ _ ha,
    List.getD_eq_getElem _ _ hb]
  simp

lemma coords_zero_length (c : Coord) : (coords_zero c).length = c.length := by
  simp [coords_zero]

lemma coords_zero_getD (c : Coord) (j : ℕ) : (coords_zero c).getD j 0 = 0 := by
  by_cases hj : j < (coords_zero c).length
  · rw [List.getD_eq_getElem _ _ hj]
    simp [coords_zero]
  · rw [List.getD_eq_default _ _ (le_of_not_lt hj)]

lemma coords_div_length (a : Coord) (n : ℚ) : (coords_div a n).length = a.length := by
  simp [coords_div]

lemma coords_div_getD (a : Coord) (n : ℚ) (j : ℕ) (ha : j < a.length) :
    (coords_div a n).getD j 0 = a.getD j 0 / n := by
  have hm : j < (coords_div a n).length := by simpa [coords_div_length] using ha
  rw [List.getD_eq_getElem _ _ hm, List.getD_eq_getElem _ _ ha]
  simp [coords_div]

lemma zip_eq_zip_take : ∀ (a b : Coord), a.zip b = (a.take b.length).zip (b.take a.length)
  | [], _ => by simp
  | _ :: _, [] => by simp
  | x :: a, y :: b => by
    simp only [List.zip_cons_cons, List.length_cons, List.take_succ_cons]
    rw [zip_eq_zip_take a b]

/-! ### The assignment scan: first index achieving the minimum -/

lemma bestAux_spec (pc : Coord) : ∀ (cs : List Coord) (i : ℕ) (b : Option ℕ) (d : ℚ),
    (bestAux pc cs i b d = (b, d) ∧ ∀ j, j < cs.length → d ≤ dist2 (cs.getD j []) pc)
    ∨ (∃ j, j < cs.length ∧
        bestAux pc cs i b d = (some (i + j), dist2 (cs.getD j []) pc) ∧
        dist2 (cs.getD j []) pc < d ∧
        (∀ j2, j2 < j → dist2 (cs.getD j []) pc < dist2 (cs.getD j2 []) pc) ∧
        (∀ j2, j2 < cs.length → dist2 (cs.getD j []) pc ≤ dist2 (cs.getD j2 []) pc))
  | [], i, b, d => Or.inl ⟨rfl, by intro j hj; simp at hj⟩
  | c :: cs, i, b, d => by
    by_cases hc : dist2 c pc < d
    · have heq : bestAux pc (c :: cs) i b d = bestAux pc cs (i + 1) (some i) (dist2 c pc) := by
        simp [bestAux, hc]
      rcases bestAux_spec pc cs (i + 1) (some i) (dist2 c pc) with ⟨h1, h2⟩ | ⟨j, hj, h1, h2, h3, h4⟩
      · refine Or.inr ⟨0, by simp, ?_, by simpa using hc, ?_, ?_⟩
        · rw [heq, h1]
          simp
        · intro j2 hj2
          exact absurd hj2 (Nat.not_lt_zero j2)
        · intro j2 hj2
          match j2 with
          | 0 => exact le_refl _
          | j2 + 1 =>
            simp only [List.getD_cons_zero, List.getD_cons_succ]
            exact h2 j2 (by simpa using hj2)
      · refine Or.inr ⟨j + 1, by simpa using hj, ?_, ?_, ?_, ?_⟩
        · rw [heq, h1]
          have : i + 1 + j = i + (j + 1) := by omega
          rw [this]
          simp
        · simp only [List.getD_cons_succ]
          exact lt_trans h2 hc
        · intro j2 hj2
          match j2 with
          | 0 => simpa using h2
          | j2 + 1 =>
            simp only [List.getD_cons_succ]
            exact h3 j2 (by omega)
        · intro j2 hj2
          match j2 with
          | 0 => simpa using le_of_lt h2
          | j2 + 1 =>
            simp only [List.getD_cons_succ]
            exact h4 j2 (by simpa using hj2)
    · have heq : bestAux pc (c :: cs) i b d = bestAux pc cs (i + 1) b d := by
        simp [bestAux, hc]
      rcases bestAux_spec pc cs (i + 1) b d with ⟨h1, h2⟩ | ⟨j, hj, h1, h2, h3, h4⟩
      · refine Or.inl ⟨by rw [heq, h1], ?_⟩
        intro j hj
        match j with
        | 0 => simpa using le_of_not_lt hc
        | j + 1 =>
          simp only [List.getD_cons_succ]
          exact h2 j (by simpa using hj)
      · refine Or.inr ⟨j + 1, by simpa using hj, ?_, ?_, ?_, ?_⟩
        · rw [heq, h1]
          have : i + 1 + j = i + (j + 1) := by omega
          rw [this]
          simp
        · simp only [List.getD_cons_succ]
          exact h2
        · intro j2 hj2
          match j2 with
          | 0 =>
            simp only [List.getD_cons_succ, List.getD_cons_zero]
            exact lt_of_lt_of_le h2 (le_of_not_lt hc)
          | j2 + 1 =>
            simp only [List.getD_cons_succ]
            exact h3 j2 (by omega)
        · intro j2 hj2
          match j2 with
          | 0 =>
            simp only [List.getD_cons_succ, List.getD_cons_zero]
            exact le_of_lt (lt_of_lt_of_le h2 (le_of_not_lt hc))
          | j2 + 1 =>
            simp only [List.getD_cons_succ]
            exact h4 j2 (by simpa using hj2)

lemma bestIndex_spec (pc : Coord) (cs : List Coord) (i : ℕ) (h : bestIndex pc cs = some i) :
    i < cs.length ∧ dist2 (cs.getD i []) pc < floatInfoMaxSq ∧
    (∀ j, j < i → dist2 (cs.getD i []) pc < dist2 (cs.getD j []) pc) ∧
    (∀ j, j < cs.length → dist2 (cs.getD i []) pc ≤ dist2 (cs.getD j []) pc) := by
  rcases bestAux_spec pc cs 0 none floatInfoMaxSq with ⟨h1, _⟩ | ⟨j, hj, h1, h2, h3, h4⟩
  · rw [bestIndex, h1] at h
    exact absurd h (by simp)
  · rw [bestIndex, h1] at h
    simp only [Nat.zero_add] at h
    have hij : i = j := by
      have := h
      simp at this
      omega
    subst hij
    exact ⟨hj, h2, h3, h4⟩

lemma bestIndex_some_of_exists (pc : Coord) (cs : List Coord)
    (h : ∃ j, j < cs.length ∧ dist2 (cs.getD j []) pc < floatInfoMaxSq) :
    ∃ i, bestIndex pc cs = some i := by
  rcases bestAux_spec pc cs 0 none floatInfoMaxSq with ⟨_, h2⟩ | ⟨j, _, h1, _⟩
  · rcases h with ⟨j, hj, hlt⟩
    exact absurd (h2 j hj) (not_le_of_lt hlt)
  · exact ⟨0 + j, by rw [bestIndex, h1]⟩

/-! ### Lemmas about assign and the assignment pass -/

lemma assign_some (cl cl2 : Clusters) (p : Point) (h : Clusters.assign cl p = some cl2) :
    ∃ i, bestIndex p.coords (scannedCentroids cl) = some i ∧
      cl2 = ⟨cl.centroids, appendAt i p cl.members⟩ := by
  cases hb : bestIndex p.coords (scannedCentroids cl) with
  | none => rw [Clusters.assign, hb] at h; cases h
  | some i =>
    rw [Clusters.assign, hb] at h
    exact ⟨i, rfl, (Option.some.injEq _ _).mp h.symm⟩

lemma assign_centroids (cl cl2 : Clusters) (p : Point) (h : Clusters.assign cl p = some cl2) :
    cl2.centroids = cl.centroids := by
  rcases assign_some cl cl2 p h with ⟨i, _, he⟩
  rw [he]

lemma assign_members_length (cl cl2 : Clusters) (p : Point)
    (h : Clusters.assign cl p = some cl2) : cl2.members.length = cl.members.length := by
  rcases assign_some cl cl2 p h with ⟨i, _, he⟩
  rw [he]
  exact appendAt_length i p cl.members

lemma scannedCentroids_length_le (cl : Clusters) :
    (scannedCentroids cl).length ≤ cl.members.length := by
  rw [scannedCentroids_eq, List.length_take]
  omega

lemma assign_scanned (cl cl2 : Clusters) (p : Point) (h : Clusters.assign cl p = some cl2) :
    scannedCentroids cl2 = scannedCentroids cl := by
  rw [scannedCentroids_eq, scannedCentroids_eq, assign_centroids cl cl2 p h,
    assign_members_length cl cl2 p h]

lemma assign_flatten_perm (cl cl2 : Clusters) (p : Point)
    (h : Clusters.assign cl p = some cl2) :
    cl2.members.flatten.Perm (cl.members.flatten ++ [p]) := by
  rcases assign_some cl cl2 p h with ⟨i, hb, he⟩
  have hi : i < cl.members.length :=
    lt_of_lt_of_le (bestIndex_spec _ _ _ hb).1 (scannedCentroids_length_le cl)
  rw [he]
  exact appendAt_flatten_perm i p cl.members hi

lemma assign_mem_getD (cl cl2 : Clusters) (p q : Point) (j : ℕ)
    (h : Clusters.assign cl p = some cl2) (hq : q ∈ cl2.members.getD j []) :
    q ∈ cl.members.getD j [] ∨
      (q = p ∧ bestIndex p.coords (scannedCentroids cl) = some j) := by
  rcases assign_some cl cl2 p h with ⟨i, hb, he⟩
  rw [he] at hq
  by_cases hji : j = i
  · subst hji
    by_cases hlt : j < cl.members.length
    · rw [appendAt_getD_self j p cl.members hlt] at hq
      rcases List.mem_append.mp hq with hin | hp
      · exact Or.inl hin
      · exact Or.inr ⟨List.mem_singleton.mp hp, hb⟩
    · rw [appendAt_of_length_le j p cl.members (le_of_not_lt hlt)] at hq
      exact Or.inl hq
  · rw [appendAt_getD_ne i j p cl.members hji] at hq
    exact Or.inl hq

lemma assignPass_nil (cl : Clusters) : assignPass cl [] = some cl := rfl

lemma assignPass_cons (cl : Clusters) (p : Point) (ps : List Point) :
    assignPass cl (p :: ps) = (Clusters.assign cl p).bind (fun c2 => assignPass c2 ps) := by
  cases ha : Clusters.assign cl p <;> simp [assignPass, List.foldlM, ha, Option.bind]

lemma assignPass_centroids : ∀ (ps : List Point) (cl cl2 : Clusters),
    assignPass cl ps = some cl2 → cl2.centroids = cl.centroids
  | [], cl, cl2, h => by
    rw [assignPass_nil] at h
    cases h
    rfl
  | p :: ps, cl, cl2, h => by
    rw [assignPass_cons] at h
    cases ha : Clusters.assign cl p with
    | none => rw [ha] at h; cases h
    | some c2 =>
      rw [ha] at h
      simp only [Option.some_bind] at h
      rw [assignPass_centroids ps c2 cl2 h, assign_centroids cl c2 p ha]

lemma assignPass_members_length : ∀ (ps : List Point) (cl cl2 : Clusters),
    assignPass cl ps = some cl2 → cl2.members.length = cl.members.length
  | [], cl, cl2, h => by
    rw [assignPass_nil] at h
    cases h
    rfl
  | p :: ps, cl, cl2, h => by
    rw [assignPass_cons] at h
    cases ha : Clusters.assign cl p with
    | none => rw [ha] at h; cases h
    | some c2 =>
      rw [ha] at h
      simp only [Option.some_bind] at h
      rw [assignPass_members_length ps c2 cl2 h, assign_members_length cl c2 p ha]

lemma assignPass_flatten_perm : ∀ (ps : List Point) (cl cl2 : Clusters),
    assignPass cl ps = some cl2 → cl2.members.flatten.Perm (cl.members.flatten ++ ps)
  | [], cl, cl2, h => by
    rw [assignPass_nil] at h
    cases h
    simp
  | p :: ps, cl, cl2, h => by
    rw [assignPass_cons] at h
    cases ha : Clusters.assign cl p with
    | none => rw [ha] at h; cases h
    | some c2 =>
      rw [ha] at h
      simp only [Option.some_bind] at h
      have h1 := assignPass_flatten_perm ps c2 cl2 h
      have h2 := assign_flatten_perm cl c2 p ha
      have h3 : (c2.members.flatten ++ ps).Perm ((cl.members.flatten ++ [p]) ++ ps) :=
        h2.append_right ps
      have h4 : (cl.members.flatten ++ [p]) ++ ps = cl.members.flatten ++ (p :: ps) := by
        simp
      exact h1.trans (h4 ▸ h3)

lemma assignPass_mem_getD : ∀ (ps : List Point) (cl cl2 : Clusters) (q : Point) (j : ℕ),
    assignPass cl ps = some cl2 → q ∈ cl2.members.getD j [] →
    q ∈ cl.members.getD j [] ∨ bestIndex q.coords (scannedCentroids cl) = some j
  | [], cl, cl2, q, j, h, hq => by
    rw [assignPass_nil] at h
    cases h
    exact Or.inl hq
  | p :: ps, cl, cl2, q, j, h, hq => by
    rw [assignPass_cons] at h
    cases ha : Clusters.assign cl p with
    | none => rw [ha] at h; cases h
    | some c2 =>
      rw [ha] at h
      simp only [Option.some_bind] at h
      rcases assignPass_mem_getD ps c2 cl2 q j h hq with hin | hbest
      · rcases assign_mem_getD cl c2 p q j ha hin with hin2 | ⟨hqp, hb⟩
        · exact Or.inl hin2
        · subst hqp
          exact Or.inr hb
      · rw [assign_scanned cl c2 p ha] at hbest
        exact Or.inr hbest

/-! ### Lemmas about centroid recomputation and the loop -/

lemma zipCalc_nil (ms : List (List Point)) : zipCalc [] ms = some [] := by
  cases ms <;> rfl

lemma zipCalc_cons_nil (c : Coord) (cs : List Coord) : zipCalc (c :: cs) [] = some (c :: cs) :=
  rfl

lemma zipCalc_cons_cons (c : Coord) (cs : List Coord) (m : List Point)
    (ms : List (List Point)) :
    zipCalc (c :: cs) (m :: ms) =
      match Clusters.calculate_centroid m, zipCalc cs ms with
      | some c1, some rest => some (c1 :: rest)
      | _, _ => none :=
  rfl

lemma zipCalc_length : ∀ (cs : List Coord) (ms : List (List Point)) (cs2 : List Coord),
    zipCalc cs ms = some cs2 → cs2.length = cs.length
  | [], ms, cs2, h => by
    rw [zipCalc_nil] at h
    cases h
    rfl
  | c :: cs, [], cs2, h => by
    rw [zipCalc_cons_nil] at h
    cases h
    rfl
  | c :: cs, m :: ms, cs2, h => by
    rw [zipCalc_cons_cons] at h
    cases hm : Clusters.calculate_centroid m with
    | none => rw [hm] at h; cases h
    | some c1 =>
      cases hz : zipCalc cs ms with
      | none => rw [hm, hz] at h; cases h
      | some rest =>
        rw [hm, hz] at h
        cases h
        simp [zipCalc_length cs ms rest hz]

lemma zipCalc_getD : ∀ (cs : List Coord) (ms : List (List Point)) (cs2 : List Coord) (t : ℕ),
    zipCalc cs ms = some cs2 → t < cs.length → t < ms.length →
    Clusters.calculate_centroid (ms.getD t []) = some (cs2.getD t [])
  | [], _, _, t, _, ht, _ => absurd ht (by simp)
  | _ :: _, [], _, t, _, _, ht2 => absurd ht2 (by simp)
  | c :: cs, m :: ms, cs2, t, h, ht, ht2 => by
    rw [zipCalc_cons_cons] at h
    cases hm : Clusters.calculate_centroid m with
    | none => rw [hm] at h; cases h
    | some c1 =>
      cases hz : zipCalc cs ms with
      | none => rw [hm, hz] at h; cases h
      | some rest =>
        rw [hm, hz] at h
        cases h
        match t with
        | 0 => simpa using hm
        | t + 1 =>
          simp only [List.getD_cons_succ]
          exact zipCalc_getD cs ms rest t hz (by simpa using ht) (by simpa using ht2)

lemma zipCalc_none_of_empty : ∀ (cs : List Coord) (ms : List (List Point)) (t : ℕ),
    t < cs.length → t < ms.length → ms.getD t [] = [] → zipCalc cs ms = none
  | [], _, t, ht, _, _ => absurd ht (by simp)
  | _ :: _, [], t, _, ht2, _ => absurd ht2 (by simp)
  | c :: cs, m :: ms, t, ht, ht2, he => by
    match t with
    | 0 =>
      simp only [List.getD_cons_zero] at he
      subst he
      rw [zipCalc_cons_cons]
      simp [Clusters.calculate_centroid]
    | t + 1 =>
      rw [zipCalc_cons_cons]
      rw [zipCalc_none_of_empty cs ms t (by simpa using ht) (by simpa using ht2)
        (by simpa using he)]
      cases Clusters.calculate_centroid m <;> rfl

lemma update_some (cl cl2 : Clusters) (h : Clusters.update_centroids cl = some cl2) :
    cl2.members = cl.members ∧ zipCalc cl.centroids cl.members = some cl2.centroids := by
  cases hz : zipCalc cl.centroids cl.members with
  | none => rw [Clusters.update_centroids, hz] at h; cases h
  | some cs =>
    rw [Clusters.update_centroids, hz] at h
    simp only [Option.map_some'] at h
    cases h
    exact ⟨rfl, rfl⟩

lemma update_centroids_length (cl cl2 : Clusters)
    (h : Clusters.update_centroids cl = some cl2) :
    cl2.centroids.length = cl.centroids.length := by
  rcases update_some cl cl2 h with ⟨_, hz⟩
  exact zipCalc_length _ _ _ hz

lemma update_none_of_empty (cl : Clusters) (t : ℕ) (ht : t < cl.centroids.length)
    (ht2 : t < cl.members.length) (he : cl.members.getD t [] = []) :
    Clusters.update_centroids cl = none := by
  rw [Clusters.update_centroids, zipCalc_none_of_empty cl.centroids cl.members t ht ht2 he]
  rfl

lemma clusterStep_parts (points : List Point) (cl cl2 : Clusters)
    (h : clusterStep points cl = some cl2) :
    ∃ cl1, assignPass cl points = some cl1 ∧ Clusters.update_centroids cl1 = some cl2 := by
  cases ha : assignPass cl points with
  | none => rw [clusterStep, ha] at h; cases h
  | some cl1 =>
    rw [clusterStep, ha] at h
    exact ⟨cl1, rfl, h⟩

lemma clusterStep_members_length (points : List Point) (cl cl2 : Clusters)
    (h : clusterStep points cl = some cl2) : cl2.members.length = cl.members.length := by
  rcases clusterStep_parts points cl cl2 h with ⟨cl1, ha, hu⟩
  rw [(update_some cl1 cl2 hu).1, assignPass_members_length points cl cl1 ha]

lemma clusterStep_centroids_length (points : List Point) (cl cl2 : Clusters)
    (h : clusterStep points cl = some cl2) : cl2.centroids.length = cl.centroids.length := by
  rcases clusterStep_parts points cl cl2 h with ⟨cl1, ha, hu⟩
  rw [update_centroids_length cl1 cl2 hu, assignPass_centroids points cl cl1 ha]

lemma clear_members_allEmpty (cl : Clusters) :
    ∀ m ∈ cl.clear_assignments.members, m = [] := by
  intro m hm
  rcases List.mem_map.mp hm with ⟨_, _, he⟩
  exact he.symm

lemma makeClustersLoop_succ (points : List Point) (n : ℕ) (cl : Clusters)
    (prev : List Coord) :
    makeClustersLoop points (n + 1) cl prev =
      match clusterStep points cl with
      | none => none
      | some cl2 =>
        if cl2.centroids = prev then some cl2
        else makeClustersLoop points n cl2.clear_assignments cl2.centroids :=
  rfl

lemma makeClustersLoop_step (points : List Point) (n : ℕ) (cl : Clusters)
    (prev : List Coord) (cl2 : Clusters) (hs : clusterStep points cl = some cl2) :
    makeClustersLoop points (n + 1) cl prev =
      if cl2.centroids = prev then some cl2
      else makeClustersLoop points n cl2.clear_assignments cl2.centroids := by
  rw [makeClustersLoop_succ, hs]

lemma makeClustersLoop_fault (points : List Point) (n : ℕ) (cl : Clusters)
    (prev : List Coord) (hs : clusterStep points cl = none) :
    makeClustersLoop points (n + 1) cl prev = none := by
  rw [makeClustersLoop_succ, hs]

lemma loop_length : ∀ (points : List Point) (n : ℕ) (cl : Clusters) (prev : List Coord)
    (c : Clusters), makeClustersLoop points n cl prev = some c →
    c.centroids.length = cl.centroids.length
  | _, 0, _, _, _, h => by cases h
  | points, n + 1, cl, prev, c, h => by
    cases hs : clusterStep points cl with
    | none => rw [makeClustersLoop_fault points n cl prev hs] at h; cases h
    | some cl2 =>
      rw [makeClustersLoop_step points n cl prev cl2 hs] at h
      by_cases he : cl2.centroids = prev
      · rw [if_pos he] at h
        cases h
        exact clusterStep_centroids_length points cl _ hs
      · rw [if_neg he] at h
        have := loop_length points n cl2.clear_assignments cl2.centroids c h
        rw [this]
        exact clusterStep_centroids_length points cl cl2 hs

lemma loop_some_spec : ∀ (points : List Point) (n : ℕ) (cl : Clusters) (prev : List Coord)
    (c : Clusters),
    (∀ m ∈ cl.members, m = []) → cl.members.length = cl.centroids.length →
    (prev = cl.centroids ∨ prev = []) →
    makeClustersLoop points n cl prev = some c →
    ∃ d0 : Clusters, (∀ m ∈ d0.members, m = []) ∧
      d0.members.length = d0.centroids.length ∧
      d0.centroids = c.centroids ∧ clusterStep points d0 = some c
  | _, 0, _, _, _, _, _, _, h => by cases h
  | points, n + 1, cl, prev, c, hemp, hlen, hprev, h => by
    cases hs : clusterStep points cl with
    | none => rw [makeClustersLoop_fault points n cl prev hs] at h; cases h
    | some cl2 =>
      rw [makeClustersLoop_step points n cl prev cl2 hs] at h
      by_cases he : cl2.centroids = prev
      · rw [if_pos he] at h
        cases h
        have hcc : cl.centroids = c.centroids := by
          rcases hprev with hp | hp
          · exact (he.trans hp).symm
          · rw [hp] at he
            have h0 : c.centroids.length = cl.centroids.length :=
              clusterStep_centroids_length points cl c hs
            rw [he] at h0
            simp only [List.length_nil] at h0
            rw [he, List.length_eq_zero.mp h0.symm]
        exact ⟨cl, hemp, hlen, hcc, hs⟩
      · rw [if_neg he] at h
        refine loop_some_spec points n cl2.clear_assignments cl2.centroids c
          (clear_members_allEmpty cl2) ?_ (Or.inl rfl) h
        show (cl2.members.map _).length = cl2.centroids.length
        rw [List.length_map, clusterStep_members_length points cl cl2 hs, hlen,
          clusterStep_centroids_length points cl cl2 hs]

/-! ### The centroid mean and the seeded state -/

lemma foldl_add_spec : ∀ (l : List Point) (acc : Coord) (d : ℕ), acc.length = d →
    (∀ q ∈ l, q.coords.length = d) →
    (l.foldl (fun sums q => coords_add sums q.coords) acc).length = d ∧
    ∀ j, j < d → (l.foldl (fun sums q => coords_add sums q.coords) acc).getD j 0 =
      acc.getD j 0 + (l.map (fun q => q.coords.getD j 0)).sum
  | [], acc, d, ha, _ => ⟨ha, fun j _ => by simp⟩
  | q :: l, acc, d, ha, hl => by
    have hq : q.coords.length = d := hl q (by simp)
    have ha2 : (coords_add acc q.coords).length = d := by
      rw [coords_add_length, ha, hq, min_self]
    have ih := foldl_add_spec l (coords_add acc q.coords) d ha2
      (fun x hx => hl x (by simp [hx]))
    refine ⟨by simpa using ih.1, ?_⟩
    intro j hj
    have step : (coords_add acc q.coords).getD j 0 = acc.getD j 0 + q.coords.getD j 0 :=
      coords_add_getD acc q.coords j (by omega) (by omega)
    calc ((q :: l).foldl (fun sums q => coords_add sums q.coords) acc).getD j 0
        = (coords_add acc q.coords).getD j 0 + (l.map (fun x => x.coords.getD j 0)).sum :=
          ih.2 j hj
      _ = acc.getD j 0 + (q.coords.getD j 0 + (l.map (fun x => x.coords.getD j 0)).sum) := by
          rw [step, add_assoc]
      _ = acc.getD j 0 + ((q :: l).map (fun x => x.coords.getD j 0)).sum := by
          simp

lemma calculate_centroid_mean (m : List Point) (d : ℕ) (hne : m ≠ [])
    (hd : ∀ q ∈ m, q.coords.length = d) :
    ∃ cent, Clusters.calculate_centroid m = some cent ∧ cent.length = d ∧
      ∀ j, j < d → cent.getD j 0 = (m.map (fun q => q.coords.getD j 0)).sum / (m.length : ℚ) := by
  match m, hne with
  | p0 :: rest, _ =>
    have hz : (coords_zero p0.coords).length = d := by
      rw [coords_zero_length]
      exact hd p0 (by simp)
    have hf := foldl_add_spec (p0 :: rest) (coords_zero p0.coords) d hz hd
    refine ⟨_, rfl, ?_, ?_⟩
    · rw [coords_div_length]
      exact hf.1
    · intro j hj
      rw [coords_div_getD _ _ j (by rw [hf.1]; exact hj), hf.2 j hj, coords_zero_getD,
        zero_add]

lemma init_members_allEmpty (cs : List Coord) : ∀ m ∈ (Clusters.init cs).members, m = [] := by
  intro m hm
  rcases List.mem_map.mp hm with ⟨_, _, he⟩
  exact he.symm

lemma init_members_length (cs : List Coord) :
    (Clusters.init cs).members.length = (Clusters.init cs).centroids.length := by
  simp [Clusters.init]

lemma assign_eq_of_bestIndex (cl : Clusters) (p : Point) (i : ℕ)
    (hb : bestIndex p.coords (scannedCentroids cl) = some i) :
    Clusters.assign cl p = some ⟨cl.centroids, appendAt i p cl.members⟩ := by
  rw [Clusters.assign, hb]

lemma clusters_ext (a b : Clusters) (h1 : a.centroids = b.centroids)
    (h2 : a.members = b.members) : a = b := by
  cases a
  cases b
  cases h1
  cases h2
  rfl

lemma map_const_nil (l : List Coord) :
    l.map (fun _ => ([] : List Point)) = List.replicate l.length [] := by
  induction l with
  | nil => rfl
  | cons x l ih => simp [ih, List.replicate_succ]

/-! ### The claims -/

/-- C1: for every run of the clustering loop, after each centroid
recomputation the new centroid list is compared with the previous
iteration's list (coordinate-wise, ordered by cluster index) using exact
equality; the loop stops, returning the cluster set, exactly when the
two lists are identical, and otherwise every membership list is cleared
(emptied) and a full assignment pass is re-run on the cleared state. -/
theorem claim1_convergence_check (points : List Point) (fuel : ℕ) (cl : Clusters)
    (prev : List Coord) :
    makeClustersLoop points (fuel + 1) cl prev =
      (match clusterStep points cl with
       | none => none
       | some cl2 =>
         if cl2.centroids = prev then some cl2
         else makeClustersLoop points fuel cl2.clear_assignments cl2.centroids) ∧
    ∀ cl2 : Clusters, cl2.clear_assignments =
      ⟨cl2.centroids, cl2.members.map (fun _ => [])⟩ :=
  ⟨makeClustersLoop_succ points fuel cl prev, fun _ => rfl⟩

/-- C2 (counterexample): with k = 1 and points [(0), (2¹⁰²⁴)] — so
0 < k ≤ number of points — the assignment pass does not leave every
point in exactly one membership list: the second point is farther than
`sys.float_info.max` from the only centroid, the scan selects no
cluster, and the pass (and the whole run) aborts with an uncaught
fault instead of assigning it. -/
theorem claim2_cex_pass_faults :
    0 < 1 ∧
    1 ≤ [(⟨[0], 0⟩ : Point), ⟨[((2 ^ 1024 : ℕ) : ℚ)], 1⟩].length ∧
    assignPass (seedClusters [(⟨[0], 0⟩ : Point), ⟨[((2 ^ 1024 : ℕ) : ℚ)], 1⟩] 1)
      [(⟨[0], 0⟩ : Point), ⟨[((2 ^ 1024 : ℕ) : ℚ)], 1⟩] = none ∧
    make_clusters 5 [(⟨[0], 0⟩ : Point), ⟨[((2 ^ 1024 : ℕ) : ℚ)], 1⟩] 1 = none := by
  refine ⟨by decide, by decide, by decide, by decide⟩

/-- C2 (amended): provided every assignment pass completes — a pass
aborts with an uncaught fault when some point lies at squared distance
at least `floatInfoMaxSq` from every centroid — every supplied point
ends up in exactly one membership list: a completed pass started from
cleared membership lists produces membership lists whose concatenation
is a permutation of the input sequence (no omission, no double
assignment, no duplication), and in particular the cluster set returned
on convergence partitions the input. -/
theorem claim2_partition (points : List Point) (fuel k : ℕ) (c : Clusters)
    (hk : 0 < k) (hkl : k ≤ points.length)
    (hrun : make_clusters fuel points k = some c) :
    c.members.flatten.Perm points ∧
    ∀ cl cl2 : Clusters, ∀ pts : List Point, (∀ m ∈ cl.members, m = []) →
      assignPass cl pts = some cl2 → cl2.members.flatten.Perm pts := by
  constructor
  · obtain ⟨d0, hde, hdl, hdc, hds⟩ := loop_some_spec points fuel (seedClusters points k) [] c
      (init_members_allEmpty _) (init_members_length _) (Or.inr rfl) hrun
    rcases clusterStep_parts points d0 c hds with ⟨c1, ha, hu⟩
    have hperm := assignPass_flatten_perm points d0 c1 ha
    rw [flatten_eq_nil_of_allEmpty d0.members hde, List.nil_append] at hperm
    rw [(update_some c1 c hu).1]
    exact hperm
  · intro cl cl2 pts hemp ha
    have hperm := assignPass_flatten_perm pts cl cl2 ha
    rwa [flatten_eq_nil_of_allEmpty cl.members hemp, List.nil_append] at hperm

/-- C3 (counterexample): a cluster set with one cluster (centroid (0))
and a point at (2¹⁰²⁴): the claim says assignment appends the point to
the minimal-distance cluster, but the point's distance reaches the
`sys.float_info.max` initial threshold, the scan keeps `best_points =
None`, and assignment aborts with an uncaught fault, appending nothing. -/
theorem claim3_cex_assign_faults :
    0 < (Clusters.mk [[0]] [[]]).centroids.length ∧
    Clusters.assign ⟨[[0]], [[]]⟩ ⟨[((2 ^ 1024 : ℕ) : ℚ)], 7⟩ = none := by
  refine ⟨by decide, by decide⟩

/-- C3 (amended): provided some cluster's centroid lies at squared
distance strictly below `floatInfoMaxSq` from the point (otherwise the
scan selects nothing and the append faults), assignment appends the
point to the cluster achieving the minimal Euclidean distance to its
centroid, and an earlier-indexed cluster at the same minimal distance
always wins: the chosen index is within range, every cluster is at
Euclidean distance at least the chosen one's, and every cluster with a
smaller index is at strictly greater Euclidean distance. -/
theorem claim3_assign_argmin (cl : Clusters) (p : Point) (j : ℕ)
    (hl : cl.members.length = cl.centroids.length)
    (hex : ∃ j2, j2 < cl.centroids.length ∧
      dist2 (cl.centroids.getD j2 []) p.coords < floatInfoMaxSq)
    (hj : j < cl.centroids.length) :
    Clusters.assign cl p =
      some ⟨cl.centroids, appendAt (chosenIndex cl p) p cl.members⟩ ∧
    chosenIndex cl p < cl.centroids.length ∧
    coords_distance (cl.centroids.getD (chosenIndex cl p) []) p.coords ≤
      coords_distance (cl.centroids.getD j []) p.coords ∧
    (j < chosenIndex cl p →
      coords_distance (cl.centroids.getD (chosenIndex cl p) []) p.coords <
        coords_distance (cl.centroids.getD j []) p.coords) := by
  have hscan : scannedCentroids cl = cl.centroids := scannedCentroids_of_length_eq cl hl
  obtain ⟨i, hb⟩ := bestIndex_some_of_exists p.coords (scannedCentroids cl)
    (by rw [hscan]; exact hex)
  have hspec := bestIndex_spec p.coords (scannedCentroids cl) i hb
  rw [hscan] at hspec
  have hchosen : chosenIndex cl p = i := by
    rw [chosenIndex, hb]
    rfl
  rw [hchosen]
  refine ⟨assign_eq_of_bestIndex cl p i hb, hspec.1, ?_, ?_⟩
  · exact coords_distance_le_of_dist2_le (hspec.2.2.2 j hj)
  · intro hji
    exact coords_distance_lt_of_dist2_lt (hspec.2.2.1 j hji)

/-- C4: for every non-empty membership list (of uniform dimension d),
centroid recomputation replaces the cluster's centroid by the
coordinate-wise mean of its members: `calculate_centroid` returns the
element-wise sum of the members (via `coords_add`, starting from the
zero coordinate) divided element-wise by the member count, whose j-th
coordinate is the mean of the members' j-th coordinates, and
`update_centroids` installs exactly that value as the cluster's new
centroid. -/
theorem claim4_centroid_mean (m : List Point) (d : ℕ) (hne : m ≠ [])
    (hd : ∀ q ∈ m, q.coords.length = d) :
    ∃ cent, Clusters.calculate_centroid m = some cent ∧ cent.length = d ∧
      (∀ j, j < d →
        cent.getD j 0 = (m.map (fun q => q.coords.getD j 0)).sum / (m.length : ℚ)) ∧
      ∀ cl cl2 : Clusters, ∀ t : ℕ, Clusters.update_centroids cl = some cl2 →
        t < cl.centroids.length → t < cl.members.length → cl.members.getD t [] = m →
        cl2.centroids.getD t [] = cent := by
  obtain ⟨cent, hc, hlen, hmean⟩ := calculate_centroid_mean m d hne hd
  refine ⟨cent, hc, hlen, hmean, ?_⟩
  intro cl cl2 t hu ht ht2 hm
  have hz := (update_some cl cl2 hu).2
  have hg := zipCalc_getD cl.centroids cl.members cl2.centroids t hz ht ht2
  rw [hm, hc] at hg
  exact ((Option.some.injEq _ _).mp hg).symm

/-- C5: with at least k input points, the i-th cluster's centroid is
seeded with the coordinates of the i-th input point for every i < k,
exactly k clusters are created, and all k membership lists start empty;
`make_clusters` runs its loop from exactly this seeded state. -/
theorem claim5_seeding (points : List Point) (k i fuel : ℕ) (hk : k ≤ points.length)
    (hi : i < k) :
    (seedClusters points k).centroids.length = k ∧
    (seedClusters points k).centroids.getD i [] = (points.getD i ⟨[], 0⟩).coords ∧
    (seedClusters points k).members = List.replicate k [] ∧
    make_clusters fuel points k = makeClustersLoop points fuel (seedClusters points k) [] := by
  have hlen1 : ((points.take k).map Point.coords).length = k := by
    rw [List.length_map, List.length_take]
    omega
  refine ⟨hlen1, ?_, ?_, rfl⟩
  · have hi2 : i < ((points.take k).map Point.coords).length := by omega
    have hip : i < points.length := lt_of_lt_of_le hi hk
    show ((points.take k).map Point.coords).getD i [] = (points.getD i ⟨[], 0⟩).coords
    rw [List.getD_eq_getElem _ _ hi2, List.getD_eq_getElem _ _ hip]
    simp
  · show ((points.take k).map Point.coords).map (fun _ => ([] : List Point)) =
      List.replicate k []
    rw [map_const_nil, hlen1]

/-- C6: whenever the loop returns (converged), the returned cluster set
is a fixed point of the assign-then-recompute step: clearing its
membership lists and re-running one full assignment pass followed by
centroid recomputation reproduces the returned state exactly — in
particular every centroid is unchanged. -/
theorem claim6_converged_fixed_point (fuel k : ℕ) (points : List Point) (c : Clusters)
    (hrun : make_clusters fuel points k = some c) :
    clusterStep points c.clear_assignments = some c := by
  obtain ⟨d0, hde, hdl, hdc, hds⟩ := loop_some_spec points fuel (seedClusters points k) [] c
    (init_members_allEmpty _) (init_members_length _) (Or.inr rfl) hrun
  have hclen : c.members.length = d0.members.length :=
    clusterStep_members_length points d0 c hds
  have hmem : c.clear_assignments.members = d0.members := by
    apply allEmpty_eq_of_length _ _ (clear_members_allEmpty c) hde
    show (c.members.map _).length = d0.members.length
    rw [List.length_map, hclen]
  have heq : c.clear_assignments = d0 :=
    clusters_ext _ _ hdc.symm hmem
  rw [heq]
  exact hds

/-- C7 (counterexample): one input point and k = 2, so
len(points) < k; `make_clusters` does not fail with an
insufficient-points error — it returns normally, with a single cluster
seeded from the single available point. -/
theorem claim7_cex_no_insufficient_error :
    [(⟨[0], 0⟩ : Point)].length < 2 ∧
    make_clusters 5 [(⟨[0], 0⟩ : Point)] 2 = some ⟨[[0]], [[⟨[0], 0⟩]]⟩ := by
  refine ⟨by decide, by decide⟩

/-- C7 (amended): with fewer input points than k, `make_clusters` does
not fail with an insufficient-data error: the slice points[0:k]
silently truncates, only len(points) clusters are seeded, and any
normally returned cluster set has len(points) clusters, not k. -/
theorem claim7_no_insufficient_check (points : List Point) (k fuel : ℕ) (c : Clusters)
    (hk : points.length < k) (hrun : make_clusters fuel points k = some c) :
    (seedClusters points k).centroids.length = points.length ∧
    c.centroids.length = points.length := by
  have h1 : (seedClusters points k).centroids.length = points.length := by
    show ((points.take k).map Point.coords).length = points.length
    rw [List.length_map, List.length_take]
    omega
  refine ⟨h1, ?_⟩
  have h2 := loop_length points fuel (seedClusters points k) [] c hrun
  rw [h2, h1]

/-- C8 (counterexample): distance((0,0),(0,0,0)) does not fail with a
dimensionality-mismatch error: `zip` silently truncates to the common
prefix and the call returns 0; `add` likewise truncates; only the
spec-prescribed `distanceSpec` reports DimensionMismatch there. -/
theorem claim8_cex_dimension_mismatch :
    coords_distance [0, 0] [0, 0, 0] = 0 ∧
    coords_add [0, 0] [0, 0, 0] = [0, 0] ∧
    distanceSpec [0, 0] [0, 0, 0] = Except.error GeomError.dimensionMismatch := by
  refine ⟨?_, by decide, ?_⟩
  · have h : dist2 [0, 0] [0, 0, 0] = 0 := by decide
    rw [coords_distance, h, Rat.cast_zero, Real.sqrt_zero]
  · rw [distanceSpec, if_neg]
    decide

/-- C8 (amended): the geometry operations of the source do not fail
fast on operands of different lengths; they silently truncate both
operands to the length of the shorter one (`zip`), and in particular
the element-wise sum has the shorter length. -/
theorem claim8_geometry_truncates (a b : Coord) :
    coords_add a b = coords_add (a.take b.length) (b.take a.length) ∧
    dist2 a b = dist2 (a.take b.length) (b.take a.length) ∧
    coords_distance a b = coords_distance (a.take b.length) (b.take a.length) ∧
    (coords_add a b).length = min a.length b.length := by
  have htake : (a.take b.length).zip (b.take a.length) = a.zip b :=
    (zip_eq_zip_take a b).symm
  refine ⟨?_, ?_, ?_, coords_add_length a b⟩
  · rw [coords_add, coords_add, htake]
  · rw [dist2, dist2, htake]
  · rw [coords_distance, coords_distance, dist2, dist2, htake]

/-- C9 (counterexample): a cluster whose membership list is empty at
recomputation time does not produce an explicit EmptyCluster outcome:
`calculate_centroid` hits the uncaught IndexError of points[0] (modelled
by `none`), `update_centroids` aborts, and a whole run in which some
cluster receives no point (two identical points, k = 2) aborts the same
way instead of reporting a policy outcome. -/
theorem claim9_cex_empty_cluster :
    Clusters.calculate_centroid ([] : List Point) = none ∧
    Clusters.update_centroids ⟨[[0], [1]], [[⟨[0], 0⟩], []]⟩ = none ∧
    make_clusters 5 [(⟨[0], 0⟩ : Point), ⟨[0], 1⟩] 2 = none := by
  refine ⟨rfl, by decide, by decide⟩

/-- C9 (amended): a cluster with zero members at recomputation time
makes the engine abort with the uncaught empty-sequence indexing fault
of points[0] — the run produces no result at all (the reference
behaviour the spec documents), rather than surfacing an EmptyCluster
policy outcome. -/
theorem claim9_empty_cluster_faults (cl : Clusters) (t : ℕ)
    (ht : t < cl.centroids.length) (ht2 : t < cl.members.length)
    (he : cl.members.getD t [] = []) :
    Clusters.update_centroids cl = none ∧
    Clusters.calculate_centroid (cl.members.getD t []) = none :=
  ⟨update_none_of_empty cl t ht ht2 he, by rw [he]; rfl⟩

/-- C10: whenever `make_clusters` returns normally, the returned
partition is consistent with the returned centroids: every point in the
i-th returned membership list is at minimal Euclidean distance to the
i-th final centroid among all final centroids, and any cluster of
smaller index is at strictly greater Euclidean distance (ties go to the
lowest cluster index), because the last assignment pass ran against
centroids exactly equal to the final ones. -/
theorem claim10_converged_consistent (fuel k i j : ℕ) (points : List Point) (c : Clusters)
    (p : Point) (hk : 0 < k) (hkl : k ≤ points.length)
    (hrun : make_clusters fuel points k = some c)
    (hp : p ∈ c.members.getD i []) (hj : j < c.centroids.length) :
    coords_distance (c.centroids.getD i []) p.coords ≤
      coords_distance (c.centroids.getD j []) p.coords ∧
    (j < i → coords_distance (c.centroids.getD i []) p.coords <
      coords_distance (c.centroids.getD j []) p.coords) := by
  obtain ⟨d0, hde, hdl, hdc, hds⟩ := loop_some_spec points fuel (seedClusters points k) [] c
    (init_members_allEmpty _) (init_members_length _) (Or.inr rfl) hrun
  rcases clusterStep_parts points d0 c hds with ⟨c1, ha, hu⟩
  rw [(update_some c1 c hu).1] at hp
  rcases assignPass_mem_getD points d0 c1 p i ha hp with hin | hbest
  · rw [allEmpty_getD d0.members hde i] at hin
    exact absurd hin (List.not_mem_nil p)
  · rw [scannedCentroids_of_length_eq d0 hdl, hdc] at hbest
    have hspec := bestIndex_spec p.coords c.centroids i hbest
    exact ⟨coords_distance_le_of_dist2_le (hspec.2.2.2 j hj),
      fun hji => coords_distance_lt_of_dist2_lt (hspec.2.2.1 j hji)⟩

/-! ### Witnesses: the claims applied at concrete inputs -/

/-- Witness for C2 at points [(0),(4)] with k = 1 and fuel 5. -/
theorem claim2_witness :
    (Clusters.mk [[2]] [[⟨[0], 0⟩, ⟨[4], 1⟩]]).members.flatten.Perm
      [(⟨[0], 0⟩ : Point), ⟨[4], 1⟩] :=
  (claim2_partition [(⟨[0], 0⟩ : Point), ⟨[4], 1⟩] 5 1 ⟨[[2]], [[⟨[0], 0⟩, ⟨[4], 1⟩]]⟩
    (by decide) (by decide) (by decide)).1

/-- Witness for C3: centroids (0) and (2), point (1) equidistant from
both — the tie goes to the lower-indexed cluster. -/
theorem claim3_witness :
    Clusters.assign ⟨[[0], [2]], [[], []]⟩ ⟨[1], 3⟩ =
      some ⟨[[0], [2]],
        appendAt (chosenIndex ⟨[[0], [2]], [[], []]⟩ ⟨[1], 3⟩) ⟨[1], 3⟩ [[], []]⟩ ∧
    chosenIndex ⟨[[0], [2]], [[], []]⟩ ⟨[1], 3⟩ < 2 ∧
    coords_distance ([[0], [2]].getD (chosenIndex ⟨[[0], [2]], [[], []]⟩ ⟨[1], 3⟩) []) [1] ≤
      coords_distance ([[0], [2]].getD 1 []) [1] ∧
    (1 < chosenIndex ⟨[[0], [2]], [[], []]⟩ ⟨[1], 3⟩ →
      coords_distance ([[0], [2]].getD (chosenIndex ⟨[[0], [2]], [[], []]⟩ ⟨[1], 3⟩) []) [1] <
        coords_distance ([[0], [2]].getD 1 []) [1]) :=
  claim3_assign_argmin ⟨[[0], [2]], [[], []]⟩ ⟨[1], 3⟩ 1 (by decide)
    ⟨0, by decide, by decide⟩ (by decide)

/-- Witness for C4: the mean of (1,3) and (3,5) in dimension 2. -/
theorem claim4_witness :
    ∃ cent, Clusters.calculate_centroid [(⟨[1, 3], 0⟩ : Point), ⟨[3, 5], 1⟩] = some cent ∧
      cent.length = 2 ∧
      (∀ j, j < 2 → cent.getD j 0 =
        ([(⟨[1, 3], 0⟩ : Point), ⟨[3, 5], 1⟩].map (fun q => q.coords.getD j 0)).sum /
          (([(⟨[1, 3], 0⟩ : Point), ⟨[3, 5], 1⟩].length : ℚ))) ∧
      ∀ cl cl2 : Clusters, ∀ t : ℕ, Clusters.update_centroids cl = some cl2 →
        t < cl.centroids.length → t < cl.members.length →
        cl.members.getD t [] = [(⟨[1, 3], 0⟩ : Point), ⟨[3, 5], 1⟩] →
        cl2.centroids.getD t [] = cent :=
  claim4_centroid_mean [(⟨[1, 3], 0⟩ : Point), ⟨[3, 5], 1⟩] 2 (by decide) (by decide)

/-- Witness for C5: seeding two clusters from points (1,2) and (3,4). -/
theorem claim5_witness :
    (seedClusters [(⟨[1, 2], 0⟩ : Point), ⟨[3, 4], 1⟩] 2).centroids.length = 2 ∧
    (seedClusters [(⟨[1, 2], 0⟩ : Point), ⟨[3, 4], 1⟩] 2).centroids.getD 1 [] =
      ([(⟨[1, 2], 0⟩ : Point), ⟨[3, 4], 1⟩].getD 1 ⟨[], 0⟩).coords ∧
    (seedClusters [(⟨[1, 2], 0⟩ : Point), ⟨[3, 4], 1⟩] 2).members = List.replicate 2 [] ∧
    make_clusters 3 [(⟨[1, 2], 0⟩ : Point), ⟨[3, 4], 1⟩] 2 =
      makeClustersLoop [(⟨[1, 2], 0⟩ : Point), ⟨[3, 4], 1⟩] 3
        (seedClusters [(⟨[1, 2], 0⟩ : Point), ⟨[3, 4], 1⟩] 2) [] :=
  claim5_seeding [(⟨[1, 2], 0⟩ : Point), ⟨[3, 4], 1⟩] 2 1 3 (by decide) (by decide)

/-- Witness for C6: the converged result for points [(0),(4)], k = 1 is
a fixed point of clear-assign-recompute. -/
theorem claim6_witness :
    clusterStep [(⟨[0], 0⟩ : Point), ⟨[4], 1⟩]
      (Clusters.clear_assignments ⟨[[2]], [[⟨[0], 0⟩, ⟨[4], 1⟩]]⟩) =
      some ⟨[[2]], [[⟨[0], 0⟩, ⟨[4], 1⟩]]⟩ :=
  claim6_converged_fixed_point 5 1 [(⟨[0], 0⟩ : Point), ⟨[4], 1⟩]
    ⟨[[2]], [[⟨[0], 0⟩, ⟨[4], 1⟩]]⟩ (by decide)

/-- Witness for C7: one point, k = 2 — one cluster seeded, one cluster
returned. -/
theorem claim7_witness :
    (seedClusters [(⟨[0], 0⟩ : Point)] 2).centroids.length = 1 ∧
    (Clusters.mk [[0]] [[⟨[0], 0⟩]]).centroids.length = 1 :=
  claim7_no_insufficient_check [(⟨[0], 0⟩ : Point)] 2 5 ⟨[[0]], [[⟨[0], 0⟩]]⟩
    (by decide) (by decide)

/-- Witness for C9: two clusters with centroids (5) and (6), the first
membership list empty — recomputation faults. -/
theorem claim9_witness :
    Clusters.update_centroids ⟨[[5], [6]], [[], [⟨[5], 2⟩]]⟩ = none ∧
    Clusters.calculate_centroid ([[], [⟨[5], 2⟩]].getD 0 ([] : List Point)) = none :=
  claim9_empty_cluster_faults ⟨[[5], [6]], [[], [⟨[5], 2⟩]]⟩ 0 (by decide) (by decide)
    (by decide)

/-- Witness for C10: converged run on [(0),(2)] with k = 2; the point
(2), a member of cluster 1, is nearer to centroid 1 than to the
earlier-indexed centroid 0, strictly. -/
theorem claim10_witness :
    coords_distance ([[0], [2]].getD 1 []) [2] ≤ coords_distance ([[0], [2]].getD 0 []) [2] ∧
    (0 < 1 → coords_distance ([[0], [2]].getD 1 []) [2] <
      coords_distance ([[0], [2]].getD 0 []) [2]) :=
  claim10_converged_consistent 5 2 1 0 [(⟨[0], 0⟩ : Point), ⟨[2], 1⟩]
    ⟨[[0], [2]], [[⟨[0], 0⟩], [⟨[2], 1⟩]]⟩ ⟨[2], 1⟩ (by decide) (by decide) (by decide)
    (by decide) (by decide)
